import Mathlib

/-!
Verification of the p25rx receiver core against its specification.

The Rust sources are shallowly embedded:
 * `usize` arithmetic is `Nat` with an explicit `% 2^64` where the source uses
   wrapping operations (`wadd`, `wsub` below);
 * `HashMap`s are association lists without duplicate keys (`alookup` /
   `ainsert` mirror `HashMap::get` / `HashMap::insert`);
 * `f32` scoring arithmetic (src/talkgroups.rs) is embedded over `ℚ` and the
   `f32` signal-power math (src/demod.rs) over `ℝ`; the concrete values
   exercised by the claims are exactly representable, so no rounding is lost;
 * in-place mutation becomes explicit state passing: each method returns the
   updated struct (and its return value, when it has one).
-/

/-- Modulus of `usize` arithmetic (64-bit platforms). -/
def USZ : Nat := 2 ^ 64

/-- Rust `usize::wrapping_add`. -/
def wadd (a b : Nat) : Nat := (a + b) % USZ

/-- Rust `usize::wrapping_sub` (arguments reduced into range first). -/
def wsub (a b : Nat) : Nat := (a % USZ + USZ - b % USZ) % USZ

/-- Lookup in an association list, mirroring `HashMap::get` on a map without
duplicate keys. -/
def alookup {β : Type} : List (Nat × β) → Nat → Option β
  | [], _ => none
  | (k', v') :: rest, k => if k' = k then some v' else alookup rest k

/-- Insert into an association list, returning the displaced value; mirrors
`HashMap::insert`. -/
def ainsert {β : Type} : List (Nat × β) → Nat → β → List (Nat × β) × Option β
  | [], k, v => ([(k, v)], none)
  | (k', v') :: rest, k, v =>
    if k' = k then ((k, v) :: rest, some v')
    else
      let r := ainsert rest k v
      ((k', v') :: r.1, r.2)

/-! ## Policy state machine (src/policy.rs) -/

/-- Action that the receiver should take (src/policy.rs `PolicyEvent`). -/
inductive PolicyEvent
  | Resync
  | ReturnControl
  | ChooseTalkgroup
deriving DecidableEq

/-- Elapsed-sample timer (src/policy.rs `Timer`). -/
structure Timer where
  max : Nat
  cur : Nat
deriving DecidableEq

/-- `Timer::new`. -/
def Timer.new (m : Nat) : Timer := ⟨m, 0⟩

/-- The `self.cur += samples` half of `Timer::expired` (release-mode `usize`
addition wraps). -/
def Timer.tick (t : Timer) (n : Nat) : Timer := { t with cur := wadd t.cur n }

/-- The `self.cur >= self.max` half of `Timer::expired`. -/
def Timer.expiredAfter (t : Timer) : Bool := t.max ≤ t.cur

/-- `Timer::reset`. -/
def Timer.reset (t : Timer) : Timer := { t with cur := 0 }

/-- Receiver state (src/policy.rs `ReceiverState`). -/
inductive ReceiverState
  | Control (t : Timer)
  | Traffic (t : Timer) (seenInit : Bool)
  | Paused (t : Timer)
deriving DecidableEq

/-- NID data units consumed by the policy machine.  The `p25` crate's
`DataUnit` enum is external to this repository; only the constructors matched
in src/policy.rs are distinguished, with `Other` standing for every data unit
that falls into the `_` arms. -/
inductive DataUnit
  | VoiceHeader
  | VoiceSimpleTerminator
  | VoiceLCTerminator
  | VoiceLCFrameGroup
  | VoiceCCFrameGroup
  | TrunkingSignaling
  | Other
deriving DecidableEq

/-- Policy state machine (src/policy.rs `ReceiverPolicy`). -/
structure ReceiverPolicy where
  state : ReceiverState
  select_time : Nat
  watchdog_time : Nat
  pause_time : Nat
deriving DecidableEq

/-- `ReceiverPolicy::new`. -/
def ReceiverPolicy.new (select watchdog pause : Nat) : ReceiverPolicy :=
  { state := .Control (Timer.new select),
    select_time := select, watchdog_time := watchdog, pause_time := pause }

/-- `ReceiverPolicy::state_control`. -/
def ReceiverPolicy.state_control (p : ReceiverPolicy) : ReceiverState :=
  .Control (Timer.new p.select_time)

/-- `ReceiverPolicy::state_traffic`. -/
def ReceiverPolicy.state_traffic (p : ReceiverPolicy) (i : Bool) : ReceiverState :=
  .Traffic (Timer.new p.watchdog_time) i

/-- `ReceiverPolicy::handle_elapsed`.  The source mutates the timer through a
`ref mut` borrow before producing the `StateChange`, so the ticked (and, in the
`Control` branch, reset) timer stays in the state even when an event is
emitted. -/
def ReceiverPolicy.handle_elapsed (p : ReceiverPolicy) (n : Nat) :
    ReceiverPolicy × Option PolicyEvent :=
  match p.state with
  | .Control t =>
    let t := t.tick n
    if t.expiredAfter then
      ({ p with state := .Control t.reset }, some .ChooseTalkgroup)
    else
      ({ p with state := .Control t }, none)
  | .Traffic t i =>
    let t := t.tick n
    if t.expiredAfter then
      ({ p with state := .Traffic t i }, some .ReturnControl)
    else
      ({ p with state := .Traffic t i }, none)
  | .Paused t =>
    let t := t.tick n
    if t.expiredAfter then
      ({ p with state := .Paused t }, some .ReturnControl)
    else
      ({ p with state := .Paused t }, none)

/-- `ReceiverPolicy::handle_nid` (only the NID's data unit is inspected). -/
def ReceiverPolicy.handle_nid (p : ReceiverPolicy) (du : DataUnit) :
    ReceiverPolicy × Option PolicyEvent :=
  match p.state with
  | .Control _ => (p, none)
  | .Traffic _ true =>
    match du with
    | .VoiceLCTerminator | .VoiceSimpleTerminator => (p, none)
    | .VoiceHeader | .VoiceLCFrameGroup | .VoiceCCFrameGroup =>
      ({ p with state := p.state_traffic false }, none)
    | .TrunkingSignaling => (p, some .Resync)
    | .Other => (p, none)
  | .Traffic t false =>
    match du with
    | .VoiceLCTerminator | .VoiceSimpleTerminator =>
      ({ p with state := .Paused (Timer.new p.pause_time) }, none)
    | .VoiceHeader | .VoiceLCFrameGroup | .VoiceCCFrameGroup =>
      ({ p with state := .Traffic t.reset false }, none)
    | _ => (p, none)
  | .Paused _ =>
    match du with
    | .VoiceHeader | .VoiceLCFrameGroup | .VoiceCCFrameGroup =>
      ({ p with state := p.state_traffic true }, none)
    | _ => (p, none)

/-- `ReceiverPolicy::handle_call_term`. -/
def ReceiverPolicy.handle_call_term (p : ReceiverPolicy) :
    ReceiverPolicy × Option PolicyEvent :=
  match p.state with
  | .Control _ => (p, none)
  | .Traffic _ _ => (p, some .ReturnControl)
  | .Paused _ => (p, some .ReturnControl)

/-- `ReceiverPolicy::enter_traffic`. -/
def ReceiverPolicy.enter_traffic (p : ReceiverPolicy) : ReceiverPolicy :=
  { p with state := p.state_traffic true }

/-- `ReceiverPolicy::enter_control`. -/
def ReceiverPolicy.enter_control (p : ReceiverPolicy) : ReceiverPolicy :=
  { p with state := p.state_control }

/-- One external stimulus to the policy machine. -/
inductive PolicyInput
  | elapsed (n : Nat)
  | nid (du : DataUnit)
  | callTerm
deriving DecidableEq

/-- Dispatch one stimulus. -/
def policyStep (p : ReceiverPolicy) : PolicyInput → ReceiverPolicy × Option PolicyEvent
  | .elapsed n => p.handle_elapsed n
  | .nid du => p.handle_nid du
  | .callTerm => p.handle_call_term

/-- Run a stimulus trace, collecting the emitted events call by call. -/
def policyRun (p : ReceiverPolicy) : List PolicyInput → ReceiverPolicy × List (Option PolicyEvent)
  | [] => (p, [])
  | i :: is =>
    let r := policyStep p i
    let rest := policyRun r.1 is
    (rest.1, r.2 :: rest.2)

/-! ## Talkgroup collection and selection (src/talkgroups.rs) -/

/-- Encryption algorithm tag.  `CryptoAlgorithm` lives in the external `p25`
crate; the selector only stores and compares these values, so an opaque-style
enumeration of a few constructors suffices. -/
inductive CryptoAlgorithm
  | Accordion
  | Des
  | Aes
  | Unencrypted
deriving DecidableEq

/-- Weights for features used in talkgroup selection (src/talkgroups.rs
`FeatureWeights`); the `f32` fields are embedded as `ℚ`. -/
structure FeatureWeights where
  prio : ℚ
  age : ℚ
  recent : ℚ
deriving DecidableEq

/-- `FeatureWeights::default`. -/
def FeatureWeights.default : FeatureWeights := ⟨1, 1, 1⟩

/-- Include/exclude talkgroup filter (src/talkgroups.rs `Filter`; renamed, as
`Filter` is already taken by Mathlib). -/
structure TgFilter where
  exclude : Bool
  filt : List Nat
deriving DecidableEq

/-- `Filter::default`: empty include-by-default state. -/
def TgFilter.default : TgFilter := ⟨true, []⟩

/-- `Filter::excluded`. -/
def TgFilter.excluded (f : TgFilter) (tg : Nat) : Bool :=
  let filtered := f.filt.contains tg
  (f.exclude && filtered) || (!f.exclude && !filtered)

/-- Talkgroup scoring features (src/talkgroups.rs `TalkgroupFeatures`). -/
structure TalkgroupFeatures where
  elapsed : Nat
  age : List (Nat × Nat)
  recent : Nat
  prios : List (Nat × ℚ)
  weights : FeatureWeights
deriving DecidableEq

/-- `TalkgroupFeatures::default`. -/
def TalkgroupFeatures.default : TalkgroupFeatures :=
  ⟨0, [], 0, [], FeatureWeights.default⟩

/-- `TalkgroupFeatures::record_elapsed` (`usize::wrapping_add`). -/
def TalkgroupFeatures.record_elapsed (f : TalkgroupFeatures) (samples : Nat) :
    TalkgroupFeatures :=
  { f with elapsed := wadd f.elapsed samples }

/-- `TalkgroupFeatures::add`. -/
def TalkgroupFeatures.add (f : TalkgroupFeatures) (tg : Nat) : TalkgroupFeatures :=
  { f with age := (ainsert f.age tg f.elapsed).1 }

/-- `TalkgroupFeatures::select`. -/
def TalkgroupFeatures.select (f : TalkgroupFeatures) (tg : Nat) : TalkgroupFeatures :=
  { f with age := [], recent := tg, elapsed := 0 }

/-- `TalkgroupFeatures::reset`. -/
def TalkgroupFeatures.reset (f : TalkgroupFeatures) : TalkgroupFeatures :=
  f.select 0

/-- `TalkgroupFeatures::oldest`:
`elapsed.wrapping_sub(age.values().min().unwrap_or(0))`. -/
def TalkgroupFeatures.oldest (f : TalkgroupFeatures) : Nat :=
  wsub f.elapsed (((f.age.map Prod.snd).min?).getD 0)

/-- The `score` closure inside `TalkgroupFeatures::max_score`, with the
captured multiplier passed explicitly; `f32` arithmetic is embedded as `ℚ`.
The source indexes `self.age[&tg]`, which panics when `tg` is absent; under the
key invariant established for the selector the lookup always succeeds, and the
default is immaterial. -/
def TalkgroupFeatures.score (f : TalkgroupFeatures) (mul : ℚ) (tg : Nat) : ℚ :=
  let age : ℚ := 1 - (wsub f.elapsed ((alookup f.age tg).getD 0) : ℚ) * mul
  let recent : ℚ := if tg = f.recent then 1 else 0
  ((alookup f.prios tg).getD 1) * f.weights.prio +
    age * f.weights.age + recent * f.weights.recent

/-- One comparison step of Rust `Iterator::max_by`: the accumulated maximum is
kept only when it compares strictly greater, so a tie moves to the newer
element. -/
def maxStep (score : Nat → ℚ) (acc : Option Nat) (x : Nat) : Option Nat :=
  match acc with
  | none => some x
  | some a => if score a > score x then some a else some x

/-- Rust `Iterator::max_by` over a list: `None` on an empty iterator, and when
several elements are equally maximal the last one is returned. -/
def maxByLast (score : Nat → ℚ) (l : List Nat) : Option Nat :=
  l.foldl (maxStep score) none

/-- Running maximum used to reason about `maxByLast`: the result of the fold
once an initial element has been seen. -/
def maxFrom (score : Nat → ℚ) (a : Nat) : List Nat → Nat
  | [] => a
  | x :: xs => if score a > score x then maxFrom score a xs else maxFrom score x xs

/-- `TalkgroupFeatures::max_score`.  The comparison uses `partial_cmp` on `f32`
scores; over `ℚ` the order is total, so the `unwrap` never fails. -/
def TalkgroupFeatures.max_score (f : TalkgroupFeatures) (groups : List Nat) :
    Option Nat :=
  let oldest : ℚ := (f.oldest : ℚ)
  let mul : ℚ := if oldest = 0 then 0 else oldest⁻¹
  maxByLast (f.score mul) groups

/-- The score `max_score` assigns to a candidate, with the multiplier computed
from `oldest` exactly as in the source. -/
def TalkgroupFeatures.scoreOf (f : TalkgroupFeatures) (tg : Nat) : ℚ :=
  let oldest : ℚ := (f.oldest : ℚ)
  let mul : ℚ := if oldest = 0 then 0 else oldest⁻¹
  f.score mul tg

/-- Talkgroup selector (src/talkgroups.rs `TalkgroupSelection`). -/
structure TalkgroupSelection where
  cur : List Nat
  cur_preempt : List Nat
  channels : List (Nat × Nat)
  encrypted : List (Nat × CryptoAlgorithm)
  preempt : List Nat
  filter : TgFilter
  feats : TalkgroupFeatures
deriving DecidableEq

/-- `TalkgroupSelection::default`. -/
def TalkgroupSelection.default : TalkgroupSelection :=
  ⟨[], [], [], [], [], TgFilter.default, TalkgroupFeatures.default⟩

/-- `TalkgroupSelection::record_elapsed`. -/
def TalkgroupSelection.record_elapsed (s : TalkgroupSelection) (samples : Nat) :
    TalkgroupSelection :=
  { s with feats := s.feats.record_elapsed samples }

/-- `TalkgroupSelection::add_talkgroup`. -/
def TalkgroupSelection.add_talkgroup (s : TalkgroupSelection) (tg freq : Nat) :
    TalkgroupSelection :=
  if (alookup s.encrypted tg).isSome || s.filter.excluded tg then s
  else
    let feats := s.feats.add tg
    let r := ainsert s.channels tg freq
    if r.2.isSome then
      { s with feats := feats, channels := r.1 }
    else
      { s with
        feats := feats
        channels := r.1
        cur := s.cur ++ [tg]
        cur_preempt :=
          if s.preempt.contains tg then s.cur_preempt ++ [tg] else s.cur_preempt }

/-- `TalkgroupSelection::record_encrypted`. -/
def TalkgroupSelection.record_encrypted (s : TalkgroupSelection) (tg : Nat)
    (alg : CryptoAlgorithm) : TalkgroupSelection :=
  { s with encrypted := (ainsert s.encrypted tg alg).1 }

/-- `TalkgroupSelection::clear_candidates`. -/
def TalkgroupSelection.clear_candidates (s : TalkgroupSelection) : TalkgroupSelection :=
  { s with cur := [], cur_preempt := [], channels := [] }

/-- `TalkgroupSelection::select_tg`.  The source indexes `self.channels[&tg]`,
which panics when `tg` is absent; under the key invariant established for the
selector the lookup always succeeds, and the default is immaterial. -/
def TalkgroupSelection.select_tg (s : TalkgroupSelection) (tg : Nat) :
    (Nat × Nat) × TalkgroupSelection :=
  let freq := (alookup s.channels tg).getD 0
  ((tg, freq), { s.clear_candidates with feats := s.feats.select tg })

/-- `TalkgroupSelection::select_idle`. -/
def TalkgroupSelection.select_idle (s : TalkgroupSelection) :
    Option (Nat × Nat) × TalkgroupSelection :=
  match s.feats.max_score s.cur with
  | none => (none, s)
  | some tg =>
    let r := s.select_tg tg
    (some r.1, r.2)

/-- `TalkgroupSelection::select_preempt`. -/
def TalkgroupSelection.select_preempt (s : TalkgroupSelection) :
    Option (Nat × Nat) × TalkgroupSelection :=
  match s.feats.max_score s.cur_preempt with
  | none => (none, s)
  | some tg =>
    let r := s.select_tg tg
    (some r.1, r.2)

/-- `TalkgroupSelection::clear_state`. -/
def TalkgroupSelection.clear_state (s : TalkgroupSelection) : TalkgroupSelection :=
  { s.clear_candidates with encrypted := [], feats := s.feats.reset }

/-- One public operation on the selector. -/
inductive TgOp
  | addTg (tg freq : Nat)
  | recElapsed (n : Nat)
  | recEncrypted (tg : Nat) (alg : CryptoAlgorithm)
  | selIdle
  | selPreempt
  | clearState
deriving DecidableEq

/-- Apply one public operation (selection results are discarded; only the
state evolution matters for the invariants). -/
def applyTgOp (s : TalkgroupSelection) : TgOp → TalkgroupSelection
  | .addTg tg freq => s.add_talkgroup tg freq
  | .recElapsed n => s.record_elapsed n
  | .recEncrypted tg alg => s.record_encrypted tg alg
  | .selIdle => s.select_idle.2
  | .selPreempt => s.select_preempt.2
  | .clearState => s.clear_state

/-- Apply a sequence of public operations. -/
def applyTgOps (s : TalkgroupSelection) (ops : List TgOp) : TalkgroupSelection :=
  ops.foldl applyTgOp s

/-! ## HTTP hub, SSE subscriber bookkeeping (src/hub.rs) -/

/-- HTTP status codes produced on the `/subscribe` route (`uhttp_status` is an
external crate; only the codes the route can produce are needed). -/
inductive StatusCode
  | TooManyRequests
  | InternalServerError
deriving DecidableEq

/-- Capacity of the `streamers` buffer: `ArrayVec<[TcpStream; 4]>`. -/
def STREAMER_CAP : Nat := 4

/-- The `(Method::Get, Route::Subscribe)` arm of `HubTask::handle_request`.
Subscribers are identified abstractly by `Nat`.  `cloneOk` stands for the
`try_clone` I/O result and `startOk` for the `start_stream` I/O result (a
successful `start_stream` has written the `200` header with
`Content-Type: text/event-stream`).  Returns the updated `streamers` list and
the `HttpResult<()>` of the handler; `ArrayVec::is_full` is a length check
against the capacity. -/
def handleSubscribe (streamers : List Nat) (sub : Nat) (cloneOk startOk : Bool) :
    List Nat × Except StatusCode Unit :=
  if cloneOk then
    if streamers.length = STREAMER_CAP then
      (streamers, .error .TooManyRequests)
    else if startOk then
      (streamers ++ [sub], .ok ())
    else
      (streamers, .ok ())
  else
    (streamers, .error .InternalServerError)

/-- The streamer bookkeeping of `HubTask::handle_event`: every streamer is
popped and only those whose `stream_event` write succeeded (`alive`) are kept,
which reverses the survivors' order. -/
def keepAlive (streamers : List Nat) (alive : Nat → Bool) : List Nat :=
  streamers.reverse.filter alive

/-- One hub interaction that touches the `streamers` list. -/
inductive HubOp
  | subscribe (sub : Nat) (cloneOk startOk : Bool)
  | event (alive : Nat → Bool)

/-- Apply one hub interaction to the `streamers` list. -/
def applyHubOp (streamers : List Nat) : HubOp → List Nat
  | .subscribe sub c k => (handleSubscribe streamers sub c k).1
  | .event alive => keepAlive streamers alive

/-- Apply a sequence of hub interactions, starting where `HubTask::new` does
(`ArrayVec::new`, the empty list). -/
def applyHubOps (ops : List HubOp) : List Nat :=
  ops.foldl applyHubOp []

/-! ## Signal power (src/demod.rs) -/

/-- `Complex32::norm_sqr` (`re*re + im*im`); complex `f32` samples are embedded
as pairs of reals. -/
def norm_sqr (z : ℝ × ℝ) : ℝ := z.1 * z.1 + z.2 * z.2

/-- `power_dbm` (src/demod.rs): fold the squared norms, divide by the length,
divide by the resistance, convert Watts to dBm.  `f32::log10` is embedded as
`Real.logb 10`. -/
noncomputable def power_dbm (samples : List (ℝ × ℝ)) (resistance : ℝ) : ℝ :=
  let avg := samples.foldl (fun s x => s + norm_sqr x) 0 / (samples.length : ℝ)
  let power := avg / resistance
  30 + 10 * Real.logb 10 power

/-- The signal power that `DemodTask::run` publishes as
`HubEvent::UpdateSignalPower`: `power_dbm(&samples[..], 1.0)` over the block's
post-bandpass samples ("Calculate power assuming a normalized resistance"). -/
noncomputable def demodSignalPower (samples : List (ℝ × ℝ)) : ℝ := power_dbm samples 1

/-! ## Selector invariant -/

/-- Key invariant of `TalkgroupSelection`: every candidate (and every preempt
candidate) has an entry in the channel map and in the age map, and the preempt
candidates form a subset of the candidates.  It is exactly what makes the
unchecked `self.channels[&tg]` and `self.age[&tg]` indexing safe. -/
def TgInv (s : TalkgroupSelection) : Prop :=
  (∀ tg, tg ∈ s.cur ∨ tg ∈ s.cur_preempt →
    (alookup s.channels tg).isSome ∧ (alookup s.feats.age tg).isSome) ∧
  (∀ tg ∈ s.cur_preempt, tg ∈ s.cur)

/-! ## Helper lemmas -/

theorem alookup_ainsert {β : Type} (m : List (Nat × β)) (k j : Nat) (v : β) :
    alookup (ainsert m k v).1 j = if j = k then some v else alookup m j := by
  induction m with
  | nil =>
    rcases eq_or_ne j k with h | h
    · subst h; simp [ainsert, alookup]
    · simp [ainsert, alookup, h, Ne.symm h]
  | cons kv rest ih =>
    obtain ⟨k', v'⟩ := kv
    rcases eq_or_ne k' k with hk | hk
    · subst hk
      rcases eq_or_ne j k' with hj | hj
      · subst hj; simp [ainsert, alookup]
      · simp [ainsert, alookup, hj, Ne.symm hj]
    · rcases eq_or_ne k' j with hj | hj
      · subst hj
        simp [ainsert, alookup, hk, Ne.symm hk]
      · simp [ainsert, alookup, hk, hj, ih]

theorem ainsert_old {β : Type} (m : List (Nat × β)) (k : Nat) (v : β) :
    (ainsert m k v).2 = alookup m k := by
  induction m with
  | nil => simp [ainsert, alookup]
  | cons kv rest ih =>
    obtain ⟨k', v'⟩ := kv
    by_cases hk : k' = k <;> simp [ainsert, alookup, hk, ih]

theorem wsub_of_le (a b : Nat) (hb : b ≤ a) (ha : a < USZ) : wsub a b = a - b := by
  have hba : b < USZ := lt_of_le_of_lt hb ha
  unfold wsub USZ at *
  omega

theorem wadd_of_lt (a b : Nat) (h : a + b < USZ) : wadd a b = a + b := by
  exact Nat.mod_eq_of_lt h

theorem foldl_maxStep_some (score : Nat → ℚ) (l : List Nat) (a : Nat) :
    l.foldl (maxStep score) (some a) = some (maxFrom score a l) := by
  induction l generalizing a with
  | nil => rfl
  | cons x xs ih =>
    rw [List.foldl_cons]
    by_cases h : score a > score x
    · simp only [maxStep, if_pos h, maxFrom, ih]
    · simp only [maxStep, if_neg h, maxFrom, ih]

theorem maxByLast_cons (score : Nat → ℚ) (x : Nat) (xs : List Nat) :
    maxByLast score (x :: xs) = some (maxFrom score x xs) := by
  rw [maxByLast, List.foldl_cons]
  exact foldl_maxStep_some score xs x

theorem maxFrom_spec (score : Nat → ℚ) (l : List Nat) (a : Nat) :
    (maxFrom score a l = a ∧ ∀ x ∈ l, score x < score a) ∨
    (∃ l₁ l₂, l = l₁ ++ maxFrom score a l :: l₂ ∧
      score a ≤ score (maxFrom score a l) ∧
      (∀ x ∈ l₁, score x ≤ score (maxFrom score a l)) ∧
      (∀ x ∈ l₂, score x < score (maxFrom score a l))) := by
  induction l generalizing a with
  | nil => exact Or.inl ⟨rfl, by simp⟩
  | cons x xs ih =>
    by_cases h : score a > score x
    · have hm : maxFrom score a (x :: xs) = maxFrom score a xs := by
        simp [maxFrom, h]
      rcases ih a with ⟨heq, hall⟩ | ⟨l₁, l₂, hsplit, hle, h₁, h₂⟩
      · refine Or.inl ⟨hm.trans heq, ?_⟩
        intro y hy
        rcases List.mem_cons.mp hy with rfl | hy
        · exact h
        · exact hall y hy
      · refine Or.inr ⟨x :: l₁, l₂, ?_, ?_, ?_, ?_⟩
        · rw [hm, List.cons_append, ← hsplit]
        · rw [hm]; exact hle
        · intro y hy
          rcases List.mem_cons.mp hy with rfl | hy
          · rw [hm]; exact le_of_lt (lt_of_lt_of_le h hle)
          · rw [hm]; exact h₁ y hy
        · intro y hy; rw [hm]; exact h₂ y hy
    · have hax : score a ≤ score x := not_lt.mp h
      have hm : maxFrom score a (x :: xs) = maxFrom score x xs := by
        simp [maxFrom, h]
      rcases ih x with ⟨heq, hall⟩ | ⟨l₁, l₂, hsplit, hle, h₁, h₂⟩
      · refine Or.inr ⟨[], xs, ?_, ?_, by simp, ?_⟩
        · rw [hm, heq]; rfl
        · rw [hm, heq]; exact hax
        · intro y hy; rw [hm, heq]; exact hall y hy
      · refine Or.inr ⟨x :: l₁, l₂, ?_, ?_, ?_, ?_⟩
        · rw [hm, List.cons_append, ← hsplit]
        · rw [hm]; exact le_trans hax hle
        · intro y hy
          rcases List.mem_cons.mp hy with rfl | hy
          · rw [hm]; exact hle
          · rw [hm]; exact h₁ y hy
        · intro y hy; rw [hm]; exact h₂ y hy

theorem maxByLast_spec (score : Nat → ℚ) (l : List Nat) (m : Nat)
    (h : maxByLast score l = some m) :
    ∃ l₁ l₂, l = l₁ ++ m :: l₂ ∧ (∀ x ∈ l, score x ≤ score m) ∧
      (∀ x ∈ l₂, score x < score m) := by
  match l with
  | [] => exact absurd h (by simp [maxByLast, List.foldl_nil])
  | x :: xs =>
    rw [maxByLast_cons] at h
    have hm : maxFrom score x xs = m := Option.some.inj h
    rcases maxFrom_spec score xs x with ⟨heq, hall⟩ | ⟨l₁, l₂, hsplit, hle, h₁, h₂⟩
    · obtain rfl : x = m := heq.symm.trans hm
      refine ⟨[], xs, rfl, ?_, hall⟩
      intro y hy
      rcases List.mem_cons.mp hy with rfl | hy
      · exact le_refl _
      · exact le_of_lt (hall y hy)
    · rw [hm] at hsplit hle h₁ h₂
      refine ⟨x :: l₁, l₂, by rw [hsplit]; rfl, ?_, h₂⟩
      intro y hy
      rcases List.mem_cons.mp hy with rfl | hy
      · exact hle
      · rw [hsplit] at hy
        rcases List.mem_append.mp hy with hy | hy
        · exact h₁ y hy
        · rcases List.mem_cons.mp hy with rfl | hy
          · exact le_refl _
          · exact le_of_lt (h₂ y hy)

theorem maxByLast_mem (score : Nat → ℚ) (l : List Nat) (m : Nat)
    (h : maxByLast score l = some m) : m ∈ l := by
  obtain ⟨l₁, l₂, hsplit, -, -⟩ := maxByLast_spec score l m h
  rw [hsplit]
  exact List.mem_append.mpr (Or.inr (List.mem_cons_self _ _))

/-! ## Claims about the policy machine -/

/-- C4: starting in the `Control` state, `handle_elapsed(n)` emits
`ChooseTalkgroup` exactly when the cumulative sample count since the last
emission reaches the `SELECT` timeout, the timer resetting to zero on emission
and accumulating otherwise (hence exactly one emission per SELECT-window); and
with `SELECT = 10` the trace `elapsed(9) → None; elapsed(1) → ChooseTalkgroup;
elapsed(9) → None; elapsed(1) → ChooseTalkgroup` holds. -/
theorem C4_control_select_window :
    (∀ (p : ReceiverPolicy) (m c n : Nat), p.state = .Control ⟨m, c⟩ → c + n < USZ →
      p.handle_elapsed n =
        if m ≤ c + n then
          ({ p with state := .Control ⟨m, 0⟩ }, some .ChooseTalkgroup)
        else
          ({ p with state := .Control ⟨m, c + n⟩ }, none)) ∧
    (policyRun (ReceiverPolicy.new 10 20 30)
        [.elapsed 9, .elapsed 1, .elapsed 9, .elapsed 1]).2 =
      [none, some .ChooseTalkgroup, none, some .ChooseTalkgroup] := by
  constructor
  · intro p m c n hs hlt
    simp only [ReceiverPolicy.handle_elapsed, hs, Timer.tick, Timer.expiredAfter,
      Timer.reset, wadd_of_lt c n hlt, decide_eq_true_eq]
  · decide

/-- Witness for C4: the general characterization applied in the initial
control state with 4 elapsed samples. -/
theorem C4_witness :
    (ReceiverPolicy.new 10 20 30).handle_elapsed 4 =
      (if 10 ≤ 0 + 4 then
        ({ ReceiverPolicy.new 10 20 30 with state := .Control ⟨10, 0⟩ },
          some .ChooseTalkgroup)
      else
        ({ ReceiverPolicy.new 10 20 30 with state := .Control ⟨10, 0 + 4⟩ }, none)) :=
  C4_control_select_window.1 (ReceiverPolicy.new 10 20 30) 10 0 4 rfl
    (by norm_num [USZ])

/-- C5: in `Traffic(t, false)` a voice terminator moves the policy to `Paused`
with a fresh PAUSE timer and no event; in `Paused` a voice header / LC frame /
CC frame moves it back to `Traffic` with a fresh WATCHDOG timer and the flag
set to `true`, with no event; and the concrete scenario trace with
`SELECT=10, WATCHDOG=20, PAUSE=30` ends in `ReturnControl` with every
intermediate call returning no event. -/
theorem C5_pause_resume :
    (∀ (p : ReceiverPolicy) (t : Timer) (du : DataUnit), p.state = .Traffic t false →
      du = .VoiceLCTerminator ∨ du = .VoiceSimpleTerminator →
      p.handle_nid du = ({ p with state := .Paused (Timer.new p.pause_time) }, none)) ∧
    (∀ (p : ReceiverPolicy) (t : Timer) (du : DataUnit), p.state = .Paused t →
      du = .VoiceHeader ∨ du = .VoiceLCFrameGroup ∨ du = .VoiceCCFrameGroup →
      p.handle_nid du =
        ({ p with state := .Traffic (Timer.new p.watchdog_time) true }, none)) ∧
    (policyRun (ReceiverPolicy.new 10 20 30).enter_traffic
        [.elapsed 5, .nid .VoiceHeader, .elapsed 19, .nid .VoiceLCFrameGroup,
         .elapsed 19, .nid .VoiceCCFrameGroup, .elapsed 19,
         .nid .VoiceSimpleTerminator, .elapsed 29, .nid .VoiceHeader, .elapsed 19,
         .elapsed 1]).2 =
      [none, none, none, none, none, none, none, none, none, none, none,
       some .ReturnControl] := by
  refine ⟨?_, ?_, by decide⟩
  · rintro p t du hs (rfl | rfl) <;> simp [ReceiverPolicy.handle_nid, hs]
  · rintro p t du hs (rfl | rfl | rfl) <;>
      simp [ReceiverPolicy.handle_nid, hs, ReceiverPolicy.state_traffic]

/-- Witness for C5: the two transition shapes at concrete states. -/
theorem C5_witness :
    (⟨.Traffic ⟨20, 5⟩ false, 10, 20, 30⟩ : ReceiverPolicy).handle_nid
        .VoiceSimpleTerminator =
      (⟨.Paused ⟨30, 0⟩, 10, 20, 30⟩, none) ∧
    (⟨.Paused ⟨30, 7⟩, 10, 20, 30⟩ : ReceiverPolicy).handle_nid .VoiceHeader =
      (⟨.Traffic ⟨20, 0⟩ true, 10, 20, 30⟩, none) :=
  ⟨C5_pause_resume.1 _ ⟨20, 5⟩ _ rfl (Or.inr rfl),
   C5_pause_resume.2.1 _ ⟨30, 7⟩ _ rfl (Or.inl rfl)⟩

/-- C6: `handle_call_term` emits `ReturnControl` whenever the state is
`Traffic` or `Paused`, and in `Control` emits nothing and leaves the whole
policy unchanged. -/
theorem C6_call_term (p : ReceiverPolicy) :
    (∀ t i, p.state = .Traffic t i → p.handle_call_term = (p, some .ReturnControl)) ∧
    (∀ t, p.state = .Paused t → p.handle_call_term = (p, some .ReturnControl)) ∧
    (∀ t, p.state = .Control t → p.handle_call_term = (p, none)) := by
  refine ⟨?_, ?_, ?_⟩
  · intro t i h; simp [ReceiverPolicy.handle_call_term, h]
  · intro t h; simp [ReceiverPolicy.handle_call_term, h]
  · intro t h; simp [ReceiverPolicy.handle_call_term, h]

/-- Witness for C6: call termination in a traffic state and in the control
state. -/
theorem C6_witness :
    (⟨.Traffic ⟨20, 0⟩ true, 10, 20, 30⟩ : ReceiverPolicy).handle_call_term =
      (⟨.Traffic ⟨20, 0⟩ true, 10, 20, 30⟩, some .ReturnControl) ∧
    (⟨.Control ⟨10, 3⟩, 10, 20, 30⟩ : ReceiverPolicy).handle_call_term =
      (⟨.Control ⟨10, 3⟩, 10, 20, 30⟩, none) :=
  ⟨(C6_call_term _).1 ⟨20, 0⟩ true rfl, (C6_call_term _).2.2 ⟨10, 3⟩ rfl⟩

/-! ## Claims about the talkgroup selector -/

theorem applyTgOps_cons (s : TalkgroupSelection) (op : TgOp) (rest : List TgOp) :
    applyTgOps s (op :: rest) = applyTgOps (applyTgOp s op) rest := rfl

theorem add_talkgroup_noop (s : TalkgroupSelection) (tg f : Nat)
    (h : (alookup s.encrypted tg).isSome) : s.add_talkgroup tg f = s := by
  simp [TalkgroupSelection.add_talkgroup, h]

theorem add_talkgroup_encrypted (s : TalkgroupSelection) (tg f : Nat) :
    (s.add_talkgroup tg f).encrypted = s.encrypted := by
  unfold TalkgroupSelection.add_talkgroup
  split
  · rfl
  · dsimp only
    split <;> rfl

theorem select_idle_encrypted (s : TalkgroupSelection) :
    s.select_idle.2.encrypted = s.encrypted := by
  unfold TalkgroupSelection.select_idle
  split <;> rfl

theorem select_preempt_encrypted (s : TalkgroupSelection) :
    s.select_preempt.2.encrypted = s.encrypted := by
  unfold TalkgroupSelection.select_preempt
  split <;> rfl

theorem applyTgOp_encrypted_isSome (s : TalkgroupSelection) (tg : Nat) (op : TgOp)
    (hop : op ≠ .clearState) (h : (alookup s.encrypted tg).isSome) :
    (alookup (applyTgOp s op).encrypted tg).isSome := by
  cases op with
  | addTg tg' f' => rw [applyTgOp, add_talkgroup_encrypted]; exact h
  | recElapsed n => exact h
  | recEncrypted tg' alg =>
    rw [applyTgOp]
    rcases eq_or_ne tg tg' with rfl | hne
    · simp [TalkgroupSelection.record_encrypted, alookup_ainsert]
    · simpa [TalkgroupSelection.record_encrypted, alookup_ainsert, hne] using h
  | selIdle => rw [applyTgOp, select_idle_encrypted]; exact h
  | selPreempt => rw [applyTgOp, select_preempt_encrypted]; exact h
  | clearState => exact absurd rfl hop

/-- C7: once `record_encrypted(tg, _)` has run, any later `add_talkgroup(tg, f)`
is a no-op on the entire selector state, through any interleaving of public
operations that does not include `clear_state` (which resets the encrypted
set). -/
theorem C7_encrypted_noop (s : TalkgroupSelection) (tg : Nat) (alg : CryptoAlgorithm)
    (f : Nat) (ops : List TgOp) (hops : ∀ op ∈ ops, op ≠ TgOp.clearState) :
    (applyTgOps (s.record_encrypted tg alg) ops).add_talkgroup tg f =
      applyTgOps (s.record_encrypted tg alg) ops := by
  have main : ∀ (l : List TgOp) (s' : TalkgroupSelection),
      (∀ op ∈ l, op ≠ TgOp.clearState) → (alookup s'.encrypted tg).isSome →
      (applyTgOps s' l).add_talkgroup tg f = applyTgOps s' l := by
    intro l
    induction l with
    | nil => intro s' _ h; exact add_talkgroup_noop s' tg f h
    | cons op rest ih =>
      intro s' hl h
      rw [applyTgOps_cons]
      exact ih (applyTgOp s' op) (fun o ho => hl o (List.mem_cons_of_mem _ ho))
        (applyTgOp_encrypted_isSome s' tg op (hl op (List.mem_cons_self _ _)) h)
  exact main ops _ hops (by simp [TalkgroupSelection.record_encrypted, alookup_ainsert])

/-- Witness for C7: marking 9 encrypted, then two unrelated operations, makes
`add_talkgroup(9, 5)` the identity. -/
theorem C7_witness :
    (applyTgOps (TalkgroupSelection.default.record_encrypted 9 .Aes)
        [.recElapsed 3, .addTg 4 44]).add_talkgroup 9 5 =
      applyTgOps (TalkgroupSelection.default.record_encrypted 9 .Aes)
        [.recElapsed 3, .addTg 4 44] :=
  C7_encrypted_noop TalkgroupSelection.default 9 .Aes 5 [.recElapsed 3, .addTg 4 44]
    (by decide)

/-- C8: finalizing a selection of `tg` returns `(tg, stored frequency)`,
clears the candidate list, the preempt-candidate list and the age map (and the
channel map with them), sets `recent = tg` and zeroes the elapsed counter; on
a fresh selector `add_talkgroup(10, 42)` makes `select_idle()` return
`(10, 42)` and an immediately following `select_idle()` return `None`. -/
theorem C8_select_finalize :
    (∀ (s : TalkgroupSelection) (tg freq : Nat), alookup s.channels tg = some freq →
      s.select_tg tg =
        ((tg, freq),
         ⟨[], [], [], s.encrypted, s.preempt, s.filter,
          ⟨0, [], tg, s.feats.prios, s.feats.weights⟩⟩)) ∧
    (TalkgroupSelection.default.add_talkgroup 10 42).select_idle.1 = some (10, 42) ∧
    (TalkgroupSelection.default.add_talkgroup 10 42).select_idle.2.select_idle.1 =
      none := by
  refine ⟨?_, ?_, ?_⟩
  · intro s tg freq h
    simp [TalkgroupSelection.select_tg, TalkgroupSelection.clear_candidates,
      TalkgroupFeatures.select, h]
  · norm_num [TalkgroupSelection.default, TalkgroupFeatures.default,
      FeatureWeights.default, TgFilter.default, TgFilter.excluded,
      TalkgroupSelection.add_talkgroup, TalkgroupFeatures.add, ainsert, alookup,
      TalkgroupSelection.select_idle, TalkgroupFeatures.max_score,
      TalkgroupFeatures.oldest, TalkgroupFeatures.score, maxByLast, maxStep,
      List.foldl, wsub, wadd, USZ, TalkgroupSelection.select_tg,
      TalkgroupSelection.clear_candidates, TalkgroupFeatures.select, List.min?]
  · norm_num [TalkgroupSelection.default, TalkgroupFeatures.default,
      FeatureWeights.default, TgFilter.default, TgFilter.excluded,
      TalkgroupSelection.add_talkgroup, TalkgroupFeatures.add, ainsert, alookup,
      TalkgroupSelection.select_idle, TalkgroupFeatures.max_score,
      TalkgroupFeatures.oldest, TalkgroupFeatures.score, maxByLast, maxStep,
      List.foldl, wsub, wadd, USZ, TalkgroupSelection.select_tg,
      TalkgroupSelection.clear_candidates, TalkgroupFeatures.select, List.min?]

/-- Witness for C8: the finalization shape at a one-candidate selector that
stores frequency 77 for talkgroup 3. -/
theorem C8_witness :
    (⟨[3], [], [(3, 77)], [], [], TgFilter.default, TalkgroupFeatures.default⟩ :
        TalkgroupSelection).select_tg 3 =
      ((3, 77),
       ⟨[], [], [], [], [], TgFilter.default, ⟨0, [], 3, [], FeatureWeights.default⟩⟩) :=
  C8_select_finalize.1 _ 3 77 (by simp [alookup])

theorem TgInv_cleared (s' : TalkgroupSelection) (hc : s'.cur = [])
    (hp : s'.cur_preempt = []) : TgInv s' := by
  constructor
  · intro tg h
    rw [hc, hp] at h
    rcases h with h | h <;> exact absurd h (List.not_mem_nil _)
  · intro tg h
    rw [hp] at h
    exact absurd h (List.not_mem_nil _)

theorem add_talkgroup_reseen (s : TalkgroupSelection) (tg f : Nat)
    (h1 : ¬((alookup s.encrypted tg).isSome || s.filter.excluded tg) = true)
    (h2 : (alookup s.channels tg).isSome = true) :
    s.add_talkgroup tg f =
      { s with
        feats := s.feats.add tg
        channels := (ainsert s.channels tg f).1 } := by
  simp only [TalkgroupSelection.add_talkgroup, if_neg h1, ainsert_old]
  rw [if_pos h2]

theorem add_talkgroup_fresh (s : TalkgroupSelection) (tg f : Nat)
    (h1 : ¬((alookup s.encrypted tg).isSome || s.filter.excluded tg) = true)
    (h2 : ¬(alookup s.channels tg).isSome = true) :
    s.add_talkgroup tg f =
      { s with
        feats := s.feats.add tg
        channels := (ainsert s.channels tg f).1
        cur := s.cur ++ [tg]
        cur_preempt :=
          if s.preempt.contains tg then s.cur_preempt ++ [tg] else s.cur_preempt } := by
  simp only [TalkgroupSelection.add_talkgroup, if_neg h1, ainsert_old]
  rw [if_neg h2]

theorem TgInv_add (s : TalkgroupSelection) (tg f : Nat) (h : TgInv s) :
    TgInv (s.add_talkgroup tg f) := by
  by_cases h1 : ((alookup s.encrypted tg).isSome || s.filter.excluded tg) = true
  · rw [TalkgroupSelection.add_talkgroup, if_pos h1]
    exact h
  · by_cases h2 : (alookup s.channels tg).isSome = true
    · rw [add_talkgroup_reseen s tg f h1 h2]
      refine ⟨?_, h.2⟩
      intro x hx
      obtain ⟨hc, ha⟩ := h.1 x hx
      constructor
      · rw [alookup_ainsert]
        split <;> simp [hc]
      · show (alookup (ainsert s.feats.age tg s.feats.elapsed).1 x).isSome
        rw [alookup_ainsert]
        split <;> simp [ha]
    · rw [add_talkgroup_fresh s tg f h1 h2]
      constructor
      · intro x hx
        have hx' : x ∈ s.cur ∨ x ∈ s.cur_preempt ∨ x = tg := by
          rcases hx with hx | hx
          · rcases List.mem_append.mp hx with hx | hx
            · exact Or.inl hx
            · exact Or.inr (Or.inr (List.mem_singleton.mp hx))
          · by_cases hp : s.preempt.contains tg = true
            · rw [if_pos hp] at hx
              rcases List.mem_append.mp hx with hx | hx
              · exact Or.inr (Or.inl hx)
              · exact Or.inr (Or.inr (List.mem_singleton.mp hx))
            · rw [if_neg hp] at hx
              exact Or.inr (Or.inl hx)
        rcases hx' with hx' | hx' | rfl
        · obtain ⟨hc, ha⟩ := h.1 x (Or.inl hx')
          constructor
          · rw [alookup_ainsert]; split <;> simp [hc]
          · show (alookup (ainsert s.feats.age tg s.feats.elapsed).1 x).isSome
            rw [alookup_ainsert]; split <;> simp [ha]
        · obtain ⟨hc, ha⟩ := h.1 x (Or.inr hx')
          constructor
          · rw [alookup_ainsert]; split <;> simp [hc]
          · show (alookup (ainsert s.feats.age tg s.feats.elapsed).1 x).isSome
            rw [alookup_ainsert]; split <;> simp [ha]
        · constructor
          · rw [alookup_ainsert]; simp
          · show (alookup (ainsert s.feats.age x s.feats.elapsed).1 x).isSome
            rw [alookup_ainsert]; simp
      · intro x hx
        by_cases hp : s.preempt.contains tg = true
        · rw [if_pos hp] at hx
          rcases List.mem_append.mp hx with hx | hx
          · exact List.mem_append.mpr (Or.inl (h.2 x hx))
          · exact List.mem_append.mpr (Or.inr hx)
        · rw [if_neg hp] at hx
          exact List.mem_append.mpr (Or.inl (h.2 x hx))

theorem TgInv_applyTgOp (s : TalkgroupSelection) (op : TgOp) (h : TgInv s) :
    TgInv (applyTgOp s op) := by
  cases op with
  | addTg tg f => exact TgInv_add s tg f h
  | recElapsed n => exact h
  | recEncrypted tg alg => exact h
  | selIdle =>
    show TgInv s.select_idle.2
    unfold TalkgroupSelection.select_idle
    cases hm : s.feats.max_score s.cur with
    | none => exact h
    | some tg => exact TgInv_cleared _ rfl rfl
  | selPreempt =>
    show TgInv s.select_preempt.2
    unfold TalkgroupSelection.select_preempt
    cases hm : s.feats.max_score s.cur_preempt with
    | none => exact h
    | some tg => exact TgInv_cleared _ rfl rfl
  | clearState => exact TgInv_cleared _ rfl rfl

theorem TgInv_default : TgInv TalkgroupSelection.default := by
  refine ⟨?_, ?_⟩ <;> intro tg h
  · rcases h with h | h <;> exact absurd h (List.not_mem_nil _)
  · exact absurd h (List.not_mem_nil _)

/-- C10: every sequence of public selector operations, starting from the
default state, preserves the key invariant (each candidate or preempt
candidate has entries in both the channel map and the age map, and preempt
candidates are candidates); consequently any talkgroup produced by
`max_score` over either candidate list — exactly those fed to the unchecked
`channels[&tg]` of `select_tg` and looked up by `age[&tg]` in `max_score` —
has both map entries, so the unchecked indexing cannot panic. -/
theorem C10_selector_invariant (ops : List TgOp) :
    TgInv (applyTgOps TalkgroupSelection.default ops) ∧
    (∀ s : TalkgroupSelection, TgInv s →
      (∀ tg, tg ∈ s.cur ∨ tg ∈ s.cur_preempt →
        (alookup s.channels tg).isSome ∧ (alookup s.feats.age tg).isSome) ∧
      (∀ tg, s.feats.max_score s.cur = some tg ∨
          s.feats.max_score s.cur_preempt = some tg →
        (alookup s.channels tg).isSome ∧ (alookup s.feats.age tg).isSome)) := by
  constructor
  · have main : ∀ (l : List TgOp) (s : TalkgroupSelection), TgInv s →
        TgInv (applyTgOps s l) := by
      intro l
      induction l with
      | nil => intro s hs; exact hs
      | cons op rest ih =>
        intro s hs
        rw [applyTgOps_cons]
        exact ih (applyTgOp s op) (TgInv_applyTgOp s op hs)
    exact main ops TalkgroupSelection.default TgInv_default
  · intro s hs
    refine ⟨hs.1, ?_⟩
    intro tg htg
    rcases htg with hm | hm
    · simp only [TalkgroupFeatures.max_score] at hm
      exact hs.1 tg (Or.inl (maxByLast_mem _ _ _ hm))
    · simp only [TalkgroupFeatures.max_score] at hm
      exact hs.1 tg (Or.inr (maxByLast_mem _ _ _ hm))

/-- Witness for C10: the invariant and both map entries after one insertion. -/
theorem C10_witness :
    TgInv (applyTgOps TalkgroupSelection.default [.addTg 1 5]) ∧
    (alookup (applyTgOps TalkgroupSelection.default [.addTg 1 5]).channels 1).isSome ∧
    (alookup (applyTgOps TalkgroupSelection.default [.addTg 1 5]).feats.age 1).isSome :=
  ⟨(C10_selector_invariant [.addTg 1 5]).1,
   ((C10_selector_invariant [.addTg 1 5]).2 _
      (C10_selector_invariant [.addTg 1 5]).1).1 1 (Or.inl (by decide))⟩

theorem scoreOf_eq (f : TalkgroupFeatures) :
    f.scoreOf = f.score (if (f.oldest : ℚ) = 0 then 0 else (f.oldest : ℚ)⁻¹) := rfl

/-- C2 counterexample: on a fresh selector, `add_talkgroup(1, 5)` then
`add_talkgroup(2, 6)` produces two candidates with equal scores, inserted in
the order 1, 2 — yet `select_idle()` picks talkgroup 2, the later-inserted
one, refuting "the earliest-inserted candidate of maximal score is the one
selected". -/
theorem C2_counterexample :
    (applyTgOps TalkgroupSelection.default [.addTg 1 5, .addTg 2 6]).cur = [1, 2] ∧
    (applyTgOps TalkgroupSelection.default [.addTg 1 5, .addTg 2 6]).feats.scoreOf 1 =
      (applyTgOps TalkgroupSelection.default [.addTg 1 5, .addTg 2 6]).feats.scoreOf 2 ∧
    (applyTgOps TalkgroupSelection.default [.addTg 1 5, .addTg 2 6]).select_idle.1 =
      some (2, 6) := by
  refine ⟨by decide, ?_, ?_⟩ <;>
    norm_num [applyTgOps, applyTgOp, List.foldl, TalkgroupSelection.default,
      TalkgroupFeatures.default, FeatureWeights.default, TgFilter.default,
      TgFilter.excluded, TalkgroupSelection.add_talkgroup, TalkgroupFeatures.add,
      ainsert, alookup, TalkgroupSelection.select_idle, TalkgroupFeatures.max_score,
      TalkgroupFeatures.oldest, TalkgroupFeatures.score, TalkgroupFeatures.scoreOf,
      maxByLast, maxStep, wsub, wadd, USZ, TalkgroupSelection.select_tg,
      TalkgroupSelection.clear_candidates, TalkgroupFeatures.select, List.min?]

/-- C2 (amended): `select_idle()` returns a maximal-score candidate from the
full candidate list and `select_preempt()` from the preempt list, but a tie
among maximal candidates is broken in favor of the *latest*-inserted one
(`max_by` keeps the last maximum): the selected candidate splits the list so
that everything is bounded by its score and everything *after* it is strictly
below. -/
theorem C2_amended_last_max (s : TalkgroupSelection) (tg freq : Nat) :
    (s.select_idle.1 = some (tg, freq) →
      ∃ l₁ l₂, s.cur = l₁ ++ tg :: l₂ ∧
        (∀ x ∈ s.cur, s.feats.scoreOf x ≤ s.feats.scoreOf tg) ∧
        (∀ x ∈ l₂, s.feats.scoreOf x < s.feats.scoreOf tg)) ∧
    (s.select_preempt.1 = some (tg, freq) →
      ∃ l₁ l₂, s.cur_preempt = l₁ ++ tg :: l₂ ∧
        (∀ x ∈ s.cur_preempt, s.feats.scoreOf x ≤ s.feats.scoreOf tg) ∧
        (∀ x ∈ l₂, s.feats.scoreOf x < s.feats.scoreOf tg)) := by
  constructor
  · intro hsel
    have hm : s.feats.max_score s.cur = some tg := by
      cases hmm : s.feats.max_score s.cur with
      | none => simp [TalkgroupSelection.select_idle, hmm] at hsel
      | some tg' =>
        simp only [TalkgroupSelection.select_idle, hmm,
          TalkgroupSelection.select_tg, Option.some.injEq, Prod.mk.injEq] at hsel
        exact congrArg some hsel.1
    simp only [TalkgroupFeatures.max_score] at hm
    rw [← scoreOf_eq] at hm
    exact maxByLast_spec _ _ _ hm
  · intro hsel
    have hm : s.feats.max_score s.cur_preempt = some tg := by
      cases hmm : s.feats.max_score s.cur_preempt with
      | none => simp [TalkgroupSelection.select_preempt, hmm] at hsel
      | some tg' =>
        simp only [TalkgroupSelection.select_preempt, hmm,
          TalkgroupSelection.select_tg, Option.some.injEq, Prod.mk.injEq] at hsel
        exact congrArg some hsel.1
    simp only [TalkgroupFeatures.max_score] at hm
    rw [← scoreOf_eq] at hm
    exact maxByLast_spec _ _ _ hm

/-- Witness for C2 (amended): the split produced by the tied two-candidate
scenario, where the selected talkgroup 2 is the last element. -/
theorem C2_amended_witness :
    ∃ l₁ l₂,
      (applyTgOps TalkgroupSelection.default [.addTg 1 5, .addTg 2 6]).cur =
        l₁ ++ 2 :: l₂ ∧
      (∀ x ∈ (applyTgOps TalkgroupSelection.default [.addTg 1 5, .addTg 2 6]).cur,
        (applyTgOps TalkgroupSelection.default
            [.addTg 1 5, .addTg 2 6]).feats.scoreOf x ≤
          (applyTgOps TalkgroupSelection.default
            [.addTg 1 5, .addTg 2 6]).feats.scoreOf 2) ∧
      (∀ x ∈ l₂,
        (applyTgOps TalkgroupSelection.default
            [.addTg 1 5, .addTg 2 6]).feats.scoreOf x <
          (applyTgOps TalkgroupSelection.default
            [.addTg 1 5, .addTg 2 6]).feats.scoreOf 2) :=
  (C2_amended_last_max _ 2 6).1 (by
    norm_num [applyTgOps, applyTgOp, List.foldl, TalkgroupSelection.default,
      TalkgroupFeatures.default, FeatureWeights.default, TgFilter.default,
      TgFilter.excluded, TalkgroupSelection.add_talkgroup, TalkgroupFeatures.add,
      ainsert, alookup, TalkgroupSelection.select_idle, TalkgroupFeatures.max_score,
      TalkgroupFeatures.oldest, TalkgroupFeatures.score, maxByLast, maxStep,
      wsub, wadd, USZ, TalkgroupSelection.select_tg,
      TalkgroupSelection.clear_candidates, TalkgroupFeatures.select, List.min?])

/-- C3 counterexample: with default (positive) weights, equal priorities and
equal recent-winner status, candidate 1 has the strictly larger age (it is the
oldest) after `add(1,1); elapsed(10); add(2,2)` — yet `select_idle()` picks
the younger candidate 2, refuting "the oldest candidate wins". -/
theorem C3_counterexample :
    (0 : ℚ) <
      (applyTgOps TalkgroupSelection.default
        [.addTg 1 1, .recElapsed 10, .addTg 2 2]).feats.weights.age ∧
    alookup (applyTgOps TalkgroupSelection.default
        [.addTg 1 1, .recElapsed 10, .addTg 2 2]).feats.prios 1 =
      alookup (applyTgOps TalkgroupSelection.default
        [.addTg 1 1, .recElapsed 10, .addTg 2 2]).feats.prios 2 ∧
    (applyTgOps TalkgroupSelection.default
        [.addTg 1 1, .recElapsed 10, .addTg 2 2]).feats.recent ≠ 1 ∧
    (applyTgOps TalkgroupSelection.default
        [.addTg 1 1, .recElapsed 10, .addTg 2 2]).feats.recent ≠ 2 ∧
    wsub (applyTgOps TalkgroupSelection.default
        [.addTg 1 1, .recElapsed 10, .addTg 2 2]).feats.elapsed
      ((alookup (applyTgOps TalkgroupSelection.default
        [.addTg 1 1, .recElapsed 10, .addTg 2 2]).feats.age 2).getD 0) <
      wsub (applyTgOps TalkgroupSelection.default
        [.addTg 1 1, .recElapsed 10, .addTg 2 2]).feats.elapsed
      ((alookup (applyTgOps TalkgroupSelection.default
        [.addTg 1 1, .recElapsed 10, .addTg 2 2]).feats.age 1).getD 0) ∧
    (applyTgOps TalkgroupSelection.default
        [.addTg 1 1, .recElapsed 10, .addTg 2 2]).select_idle.1 = some (2, 2) := by
  refine ⟨by norm_num [applyTgOps, applyTgOp, List.foldl, TalkgroupSelection.default,
      TalkgroupFeatures.default, FeatureWeights.default, TgFilter.default,
      TgFilter.excluded, TalkgroupSelection.add_talkgroup, TalkgroupFeatures.add,
      TalkgroupSelection.record_elapsed, TalkgroupFeatures.record_elapsed,
      ainsert, alookup, wadd, USZ],
    rfl, by decide, by decide, by decide, ?_⟩
  norm_num [applyTgOps, applyTgOp, List.foldl, TalkgroupSelection.default,
    TalkgroupFeatures.default, FeatureWeights.default, TgFilter.default,
    TgFilter.excluded, TalkgroupSelection.add_talkgroup, TalkgroupFeatures.add,
    TalkgroupSelection.record_elapsed, TalkgroupFeatures.record_elapsed,
    ainsert, alookup, TalkgroupSelection.select_idle, TalkgroupFeatures.max_score,
    TalkgroupFeatures.oldest, TalkgroupFeatures.score, maxByLast, maxStep,
    wsub, wadd, USZ, TalkgroupSelection.select_tg,
    TalkgroupSelection.clear_candidates, TalkgroupFeatures.select, List.min?]

/-- C3 (amended): if the age weight is positive and all other scoring features
(priority and recent-winner status) are equal between two candidates, the
candidate with the *largest* age loses the selection to the one with a smaller
age — older talkgroups score lower, so the youngest candidate wins
`select_idle()`. -/
theorem C3_amended_youngest_wins (s : TalkgroupSelection) (a b ta tb fb : Nat)
    (hab : a ≠ b)
    (hcur : s.cur = [a, b])
    (hage : s.feats.age = [(a, ta), (b, tb)])
    (htab : ta < tb) (htbe : tb ≤ s.feats.elapsed) (he : s.feats.elapsed < USZ)
    (hw : 0 < s.feats.weights.age)
    (hprio : (alookup s.feats.prios a).getD 1 = (alookup s.feats.prios b).getD 1)
    (hra : s.feats.recent ≠ a) (hrb : s.feats.recent ≠ b)
    (hchan : alookup s.channels b = some fb) :
    s.select_idle.1 = some (b, fb) := by
  have htae : ta ≤ s.feats.elapsed := le_of_lt (lt_of_lt_of_le htab htbe)
  have hta_lt : ta < s.feats.elapsed := lt_of_lt_of_le htab htbe
  have hmin : ((s.feats.age.map Prod.snd).min?).getD 0 = ta := by
    rw [hage]
    show (List.min? [ta, tb]).getD 0 = ta
    simp [List.min?, Nat.min_eq_left (le_of_lt htab)]
  have hold : s.feats.oldest = s.feats.elapsed - ta := by
    rw [TalkgroupFeatures.oldest, hmin, wsub_of_le _ _ htae he]
  have hpos : 0 < s.feats.elapsed - ta := Nat.sub_pos_of_lt hta_lt
  have holdQ_pos : (0 : ℚ) < (s.feats.oldest : ℚ) := by
    rw [hold]; exact_mod_cast hpos
  have hne : ((s.feats.oldest : ℚ)) ≠ 0 := ne_of_gt holdQ_pos
  have hsa : alookup s.feats.age a = some ta := by
    rw [hage]; simp [alookup]
  have hsb : alookup s.feats.age b = some tb := by
    rw [hage]; simp [alookup, hab]
  have hD : (0 : ℚ) < ((s.feats.elapsed - ta : ℕ) : ℚ) := by exact_mod_cast hpos
  have key : s.feats.score ((s.feats.oldest : ℚ))⁻¹ a <
      s.feats.score ((s.feats.oldest : ℚ))⁻¹ b := by
    simp only [TalkgroupFeatures.score, hsa, hsb, Option.getD_some, hprio,
      wsub_of_le _ _ htae he, wsub_of_le _ _ htbe he, hold,
      if_neg (fun hh : a = s.feats.recent => hra hh.symm),
      if_neg (fun hh : b = s.feats.recent => hrb hh.symm)]
    have hdb : ((s.feats.elapsed - tb : ℕ) : ℚ) < ((s.feats.elapsed - ta : ℕ) : ℚ) := by
      exact_mod_cast (show s.feats.elapsed - tb < s.feats.elapsed - ta by omega)
    have h1 : ((s.feats.elapsed - ta : ℕ) : ℚ) *
        ((s.feats.elapsed - ta : ℕ) : ℚ)⁻¹ = 1 := mul_inv_cancel₀ (ne_of_gt hD)
    have h2 : ((s.feats.elapsed - tb : ℕ) : ℚ) *
        ((s.feats.elapsed - ta : ℕ) : ℚ)⁻¹ < 1 := by
      rw [← h1]
      exact mul_lt_mul_of_pos_right hdb (inv_pos.mpr hD)
    have h3 : 0 < (1 - ((s.feats.elapsed - tb : ℕ) : ℚ) *
        ((s.feats.elapsed - ta : ℕ) : ℚ)⁻¹) * s.feats.weights.age :=
      mul_pos (by linarith) hw
    rw [h1]
    linarith
  have hms : s.feats.max_score s.cur = some b := by
    rw [hcur]
    simp only [TalkgroupFeatures.max_score, if_neg hne]
    rw [maxByLast_cons]
    have : maxFrom (s.feats.score ((s.feats.oldest : ℚ))⁻¹) a [b] = b := by
      simp [maxFrom, lt_asymm key]
    rw [this]
  simp only [TalkgroupSelection.select_idle, hms, TalkgroupSelection.select_tg,
    hchan, Option.getD_some]

/-- Witness for C3 (amended): in the counterexample state, candidate 1 has age
10 and candidate 2 age 0, and the younger candidate 2 wins. -/
theorem C3_amended_witness :
    (applyTgOps TalkgroupSelection.default
        [.addTg 1 1, .recElapsed 10, .addTg 2 2]).select_idle.1 = some (2, 2) :=
  C3_amended_youngest_wins _ 1 2 0 10 2 (by decide) (by decide) (by decide)
    (by decide) (by decide) (by decide)
    (by norm_num [applyTgOps, applyTgOp, List.foldl, TalkgroupSelection.default,
      TalkgroupFeatures.default, FeatureWeights.default, TgFilter.default,
      TgFilter.excluded, TalkgroupSelection.add_talkgroup, TalkgroupFeatures.add,
      TalkgroupSelection.record_elapsed, TalkgroupFeatures.record_elapsed,
      ainsert, alookup, wadd, USZ])
    rfl (by decide) (by decide) (by decide)

/-! ## Claims about the hub and the demodulator -/

/-- C9: a `GET /subscribe` arriving with 4 active SSE subscribers is answered
`429 Too Many Requests` and adds nothing; with fewer than 4 (and the clone and
header write succeeding, i.e. the `text/event-stream` upgrade written) the
subscriber is appended; and across any sequence of subscribes and event
broadcasts the subscriber count never exceeds 4. -/
theorem C9_subscribe_limit :
    (∀ (st : List Nat) (sub : Nat) (k : Bool), st.length = STREAMER_CAP →
      handleSubscribe st sub true k = (st, .error .TooManyRequests)) ∧
    (∀ (st : List Nat) (sub : Nat), st.length < STREAMER_CAP →
      handleSubscribe st sub true true = (st ++ [sub], .ok ())) ∧
    (∀ ops, (applyHubOps ops).length ≤ STREAMER_CAP) := by
  refine ⟨?_, ?_, ?_⟩
  · intro st sub k h
    simp [handleSubscribe, h]
  · intro st sub h
    simp [handleSubscribe, Nat.ne_of_lt h]
  · have step : ∀ (st : List Nat) (op : HubOp), st.length ≤ STREAMER_CAP →
        (applyHubOp st op).length ≤ STREAMER_CAP := by
      intro st op h
      cases op with
      | subscribe sub c k =>
        by_cases hc : c = true
        · subst hc
          by_cases hf : st.length = STREAMER_CAP
          · simp [applyHubOp, handleSubscribe, hf]
          · by_cases hk : k = true
            · subst hk
              simp only [applyHubOp, handleSubscribe, if_pos rfl, if_neg hf, if_true,
                List.length_append, List.length_singleton]
              omega
            · simp [applyHubOp, handleSubscribe, hf, hk, h]
        · simp [applyHubOp, handleSubscribe, hc, h]
      | event alive =>
        calc (keepAlive st alive).length
            ≤ st.reverse.length := List.length_filter_le _ _
          _ = st.length := List.length_reverse _
          _ ≤ STREAMER_CAP := h
    intro ops
    have main : ∀ (l : List HubOp) (st : List Nat), st.length ≤ STREAMER_CAP →
        (l.foldl applyHubOp st).length ≤ STREAMER_CAP := by
      intro l
      induction l with
      | nil => intro st h; exact h
      | cons op rest ih =>
        intro st h
        rw [List.foldl_cons]
        exact ih _ (step st op h)
    exact main ops [] (by simp [STREAMER_CAP])

/-- Witness for C9: a full subscriber list yields `429` unchanged, a
one-element list accepts the new subscriber, and a concrete op sequence stays
within the cap. -/
theorem C9_witness :
    handleSubscribe [11, 12, 13, 14] 15 true true =
      ([11, 12, 13, 14], .error .TooManyRequests) ∧
    handleSubscribe [11] 15 true true = ([11, 15], .ok ()) ∧
    (applyHubOps [.subscribe 1 true true, .subscribe 2 true true]).length ≤
      STREAMER_CAP :=
  ⟨C9_subscribe_limit.1 [11, 12, 13, 14] 15 true (by decide),
   C9_subscribe_limit.2.1 [11] 15 (by decide),
   C9_subscribe_limit.2.2 [.subscribe 1 true true, .subscribe 2 true true]⟩

theorem foldl_norm_sqr (l : List (ℝ × ℝ)) (c : ℝ) :
    l.foldl (fun s x => s + norm_sqr x) c = c + (l.map norm_sqr).sum := by
  induction l generalizing c with
  | nil => simp
  | cons x xs ih =>
    simp only [List.foldl_cons, List.map_cons, List.sum_cons, ih]
    ring

theorem power_dbm_formula (x : List (ℝ × ℝ)) (R : ℝ) :
    power_dbm x R = 30 + 10 * Real.logb 10 (((x.map norm_sqr).sum / x.length) / R) := by
  simp only [power_dbm, foldl_norm_sqr, zero_add]

theorem power_dbm_allones (R : ℝ) :
    power_dbm (List.replicate 16 (1, 0)) R = 30 + 10 * Real.logb 10 (1 / R) := by
  rw [power_dbm_formula]
  norm_num [norm_sqr, List.map_replicate, List.sum_replicate]

/-- C1 counterexample: over a block of sixteen `(1,0)` samples the demod task
publishes `power_dbm(samples, 1.0) = 30 dBm` ("normalized resistance"), which
differs from the claimed `power_dbm(samples, 50)`: the published signal power
is not computed with `R = 50 Ω`. -/
theorem C1_counterexample :
    demodSignalPower (List.replicate 16 (1, 0)) = 30 ∧
    demodSignalPower (List.replicate 16 (1, 0)) ≠
      power_dbm (List.replicate 16 (1, 0)) 50 := by
  have h1 : demodSignalPower (List.replicate 16 (1, 0)) = 30 := by
    rw [demodSignalPower, power_dbm_allones]
    norm_num
  refine ⟨h1, ?_⟩
  rw [h1, power_dbm_allones]
  have hpos : 0 < Real.logb 10 50 := Real.logb_pos (by norm_num) (by norm_num)
  rw [one_div, Real.logb_inv]
  intro hcontra
  nlinarith [hpos]

/-- C1 (amended): `power_dbm(x, R)` is `30 + 10·log10((Σ|x_i|²/len)/R)`; the
demod task publishes `UpdateSignalPower` computed by this formula with
`R = 1.0` (a normalized resistance) over the block's post-bandpass samples;
and for `R = 50` with 16 samples equal to `(1,0)` the value is ≈ 13.01 dBm
(strictly between 13.01 and 13.02). -/
theorem C1_amended_signal_power :
    (∀ (x : List (ℝ × ℝ)) (R : ℝ), x ≠ [] →
      power_dbm x R = 30 + 10 * Real.logb 10 (((x.map norm_sqr).sum / x.length) / R)) ∧
    (∀ x, demodSignalPower x = power_dbm x 1) ∧
    (13.01 < power_dbm (List.replicate 16 (1, 0)) 50 ∧
     power_dbm (List.replicate 16 (1, 0)) 50 < 13.02) := by
  refine ⟨fun x R _ => power_dbm_formula x R, fun x => rfl, ?_⟩
  rw [power_dbm_allones, one_div, Real.logb_inv]
  have hlog10 : (0 : ℝ) < Real.log 10 := Real.log_pos (by norm_num)
  have hub : Real.logb 10 50 < 1.699 := by
    rw [Real.logb, div_lt_iff₀ hlog10]
    have h50 : Real.log ((50 : ℝ) ^ (1000 : ℕ)) < Real.log ((10 : ℝ) ^ (1699 : ℕ)) :=
      Real.log_lt_log (by positivity) (by norm_num)
    rw [Real.log_pow, Real.log_pow] at h50
    push_cast at h50
    linarith
  have hlb : (1.698 : ℝ) < Real.logb 10 50 := by
    rw [Real.logb, lt_div_iff₀ hlog10]
    have h50 : Real.log ((10 : ℝ) ^ (1698 : ℕ)) < Real.log ((50 : ℝ) ^ (1000 : ℕ)) :=
      Real.log_lt_log (by positivity) (by norm_num)
    rw [Real.log_pow, Real.log_pow] at h50
    push_cast at h50
    linarith
  constructor <;> linarith

/-- Witness for C1 (amended): the formula instantiated on a single-sample
block with resistance 2. -/
theorem C1_amended_witness :
    power_dbm [((1 : ℝ), (0 : ℝ))] 2 =
      30 + 10 * Real.logb 10
        ((([((1 : ℝ), (0 : ℝ))].map norm_sqr).sum / ([((1 : ℝ), (0 : ℝ))].length : ℝ)) / 2) :=
  C1_amended_signal_power.1 [(1, 0)] 2 (by simp)
